import Mathlib

/-!
Verification of the license-validation backend.

The definitions below are a shallow embedding of the JavaScript
source (signatureService.js, validationService.js, validateController.js).
JavaScript scalar values that appear in request bodies are modelled by
`JVal`; database reads are modelled by explicit snapshot values passed to
the translated functions; the HMAC-SHA256 digest from the node crypto
library is abstracted as a function parameter (the properties proved here
do not depend on the digest beyond determinism and output length).
-/

namespace Backend

/-- A JavaScript scalar value as it can appear in a parsed JSON request
body: a string, an integer number, a boolean, `null`, or `undefined`
(absent property). -/
inductive JVal where
  | str (s : String)
  | num (n : Int)
  | bool (b : Bool)
  | null
  | undefined
  deriving DecidableEq, Repr

/-- JavaScript truthiness of a scalar: `""`, `0`, `false`, `null` and
`undefined` are falsy, everything else is truthy. -/
def JVal.truthy : JVal → Bool
  | .str s => !(s == "")
  | .num n => !(n == 0)
  | .bool b => b
  | .null => false
  | .undefined => false

/-- JavaScript string coercion of a scalar, as produced by a template
literal. -/
def JVal.render : JVal → String
  | .str s => s
  | .num n => toString n
  | .bool b => cond b "true" "false"
  | .null => "null"
  | .undefined => "undefined"

/-- Whether a scalar is `null` or `undefined` (the values dropped by the
canonicalization). -/
def JVal.isNullish : JVal → Bool
  | .null => true
  | .undefined => true
  | _ => false

/-- JavaScript property read `data[key]` on an object modelled as an
association list: the first entry with the key, `undefined` when absent. -/
def jlookup (data : List (String × JVal)) (key : String) : JVal :=
  match data.find? (fun p => p.1 == key) with
  | some p => p.2
  | none => .undefined

/-- Lexicographic comparison of character lists by code point, the order
used by the default JavaScript `Array.prototype.sort` on the (ASCII) key
strings. -/
def charListLe : List Char → List Char → Bool
  | [], _ => true
  | _ :: _, [] => false
  | a :: as, b :: bs => if a = b then charListLe as bs else decide (a < b)

/-- Lexicographic string order by code point, as a proposition. -/
def strLe (a b : String) : Prop :=
  charListLe a.data b.data = true

instance : DecidableRel strLe := fun a b =>
  inferInstanceAs (Decidable (charListLe a.data b.data = true))

namespace SignatureService

/-- `SignatureService.createPayload` (signatureService.js 114-126): sort
the object keys lexicographically, keep entries whose value is neither
`undefined` nor `null`, render each as `key=value`, join with `&`. -/
def createPayload (data : List (String × JVal)) : String :=
  String.intercalate "&"
    ((List.insertionSort strLe (data.map Prod.fst)).filterMap (fun key =>
      if (jlookup data key).isNullish then none
      else some (key ++ "=" ++ (jlookup data key).render)))

/-- `SignatureService.sign` (signatureService.js 86-92): the keyed digest
of the canonical payload.  `hmac payload secret` stands for
`crypto.createHmac(sha256, secret).update(payload).digest(hex)`. -/
def sign (hmac : String → String → String) (data : List (String × JVal))
    (secret : String) : String :=
  hmac (createPayload data) secret

/-- `crypto.timingSafeEqual(Buffer.from(a), Buffer.from(b))`: throws a
`RangeError` when the two buffers have different byte lengths, otherwise
compares them byte for byte.  UTF-8 encoding being injective, equal-length
buffers are equal exactly when the strings are. -/
def timingSafeEqual (a b : String) : Except String Bool :=
  if a.utf8ByteSize = b.utf8ByteSize then .ok (a == b)
  else .error "RangeError: Input buffers must have the same byte length"

/-- `SignatureService.verify` (signatureService.js 101-107): recompute the
signature and hand both strings to `crypto.timingSafeEqual`.  There is no
length guard in the source, so the call throws on a length mismatch. -/
def verify (hmac : String → String → String) (data : List (String × JVal))
    (signature secret : String) : Except String Bool :=
  timingSafeEqual signature (sign hmac data secret)

/-- `SignatureService.isTimestampValid` (signatureService.js 142-146);
`now` is `Math.floor(Date.now() / 1000)`, passed explicitly here. -/
def isTimestampValid (now ts : Int) (toleranceSeconds : Nat) : Bool :=
  (now - ts).natAbs ≤ toleranceSeconds

/-- `String.startsWith`, phrased over the character lists so that it
reduces inside the kernel. -/
def strStartsWith (s pre : String) : Bool :=
  pre.data.isPrefixOf s.data

/-- `String.endsWith`, phrased over the character lists. -/
def strEndsWith (s suf : String) : Bool :=
  suf.data.isSuffixOf s.data

/-- `String.drop`, phrased over the character lists. -/
def strDrop (s : String) (n : Nat) : String :=
  String.mk (s.data.drop n)

/-- `String.dropRight`, phrased over the character lists. -/
def strDropRight (s : String) (n : Nat) : String :=
  String.mk (s.data.reverse.drop n |>.reverse)

/-- `String.toLowerCase`, phrased over the character lists. -/
def strToLower (s : String) : String :=
  String.mk (s.data.map Char.toLower)

/-- One regex-replace step of `normalizeDomain`: strip a single leading
`http://` or `https://`. -/
def stripScheme (s : String) : String :=
  if strStartsWith s "https://" then strDrop s 8
  else if strStartsWith s "http://" then strDrop s 7
  else s

/-- Strip a single leading `www.`. -/
def stripWww (s : String) : String :=
  if strStartsWith s "www." then strDrop s 4 else s

/-- Strip a single trailing `/`. -/
def stripTrailingSlash (s : String) : String :=
  if strEndsWith s "/" then strDropRight s 1 else s

/-- `SignatureService.normalizeDomain` (signatureService.js 235-241):
lower-case, then strip scheme, leading `www.` and trailing `/`. -/
def normalizeDomain (domain : String) : String :=
  stripTrailingSlash (stripWww (stripScheme (strToLower domain)))

/-- `SignatureService.isDomainAllowed` (signatureService.js 271-289):
fails closed on a missing or empty list; otherwise a normalized pattern
starting with `*.` matches any normalized domain ending in its suffix,
and any other pattern must equal the normalized domain. -/
def isDomainAllowed (domain : String) (allowedDomains : Option (List String)) : Bool :=
  match allowedDomains with
  | none => false
  | some ds =>
    if ds.isEmpty then false
    else
      let normalizedDomain := normalizeDomain domain
      ds.any (fun allowedDomain =>
        let normalizedAllowed := normalizeDomain allowedDomain
        if strStartsWith normalizedAllowed "*." then
          strEndsWith normalizedDomain (strDrop normalizedAllowed 2)
        else normalizedDomain == normalizedAllowed)

/-- Matching of the regex built in `isIpAllowed` with explicit fuel (every
recursive call shrinks pattern or text, so `pattern + text + 1` steps
always suffice): each `*` of the pattern matches any character run and
every other pattern character is matched literally, mirroring the
escaped-dot, `*`-to-`.*` regex of the source. -/
def globMatchF : Nat → List Char → List Char → Bool
  | 0, _, _ => false
  | _ + 1, [], [] => true
  | _ + 1, [], _ :: _ => false
  | fuel + 1, '*' :: ps, [] => globMatchF fuel ps []
  | fuel + 1, '*' :: ps, t :: ts =>
    globMatchF fuel ps (t :: ts) || globMatchF fuel ('*' :: ps) ts
  | _ + 1, _ :: _, [] => false
  | fuel + 1, p :: ps, t :: ts => p == t && globMatchF fuel ps ts

/-- Matching of the regex built in `isIpAllowed`, with enough fuel. -/
def globMatch (pattern text : List Char) : Bool :=
  globMatchF (pattern.length + text.length + 1) pattern text

/-- `SignatureService.isIpAllowed` (signatureService.js 249-263): fails
open on a missing or empty list; a pattern containing `*` is matched as a
wildcard, any other pattern by string equality. -/
def isIpAllowed (ip : String) (allowedIps : Option (List String)) : Bool :=
  match allowedIps with
  | none => true
  | some ips =>
    if ips.isEmpty then true
    else ips.any (fun allowedIp =>
      if allowedIp.data.contains '*' then globMatch allowedIp.data ip.data
      else allowedIp == ip)

end SignatureService

/-- A row of the `nonce_store` table. -/
structure NonceRecord where
  id : Nat
  nonce : String
  api_key_id : Nat
  used : Bool
  expires_at : Int
  deriving DecidableEq, Repr

/-- Outcome of the nonce check: `valid` flag plus the message carried on
failure (the source returns a bare `{ valid: true }` on success). -/
structure NonceOutcome where
  valid : Bool
  message : Option String
  deriving DecidableEq, Repr

/-- The `select` call of `checkAndMarkNonce` (validationService.js
346-351): the row matching both the nonce value and the key id, if any. -/
def nonceSelect (store : List NonceRecord) (nonce : String) (apiKeyId : Nat) :
    Option NonceRecord :=
  store.find? (fun r => r.nonce == nonce && r.api_key_id == apiKeyId)

/-- The `update` call of `checkAndMarkNonce` (validationService.js
366-369): set `used` on every row with the given id. -/
def nonceMarkUsed (store : List NonceRecord) (id : Nat) : List NonceRecord :=
  store.map (fun r => if r.id == id then { r with used := true } else r)

/-- `ValidationService.checkAndMarkNonce` (validationService.js 345-372):
a read call, three in-memory checks on the row it returned, then a
separate write call; returns the outcome together with the store as the
write left it.  `now` is the instant of `new Date()`. -/
def checkAndMarkNonce (store : List NonceRecord) (nonce : String)
    (apiKeyId : Nat) (now : Int) : NonceOutcome × List NonceRecord :=
  match nonceSelect store nonce apiKeyId with
  | none => (⟨false, some "Nonce not found"⟩, store)
  | some data =>
    if data.used then (⟨false, some "Nonce already used (replay attack)"⟩, store)
    else if data.expires_at < now then (⟨false, some "Nonce expired"⟩, store)
    else (⟨true, none⟩, nonceMarkUsed store data.id)

/-- The decision part of `checkAndMarkNonce` taken in isolation: it uses
only the row returned by the earlier read call, not the current store. -/
def nonceDecision (found : Option NonceRecord) (now : Int) : NonceOutcome :=
  match found with
  | none => ⟨false, some "Nonce not found"⟩
  | some data =>
    if data.used then ⟨false, some "Nonce already used (replay attack)"⟩
    else if data.expires_at < now then ⟨false, some "Nonce expired"⟩
    else ⟨true, none⟩

/-- Two concurrent executions of `checkAndMarkNonce` on the same
`(nonce, key)` pair under the schedule read-A, read-B, write-A, write-B.
This schedule is available to the backing store because the source issues
the read and the write as two separate awaited calls; each run decides
from the row its own read returned. -/
def nonceRaceReadReadWriteWrite (store : List NonceRecord) (nonce : String)
    (apiKeyId : Nat) (now : Int) :
    NonceOutcome × NonceOutcome × List NonceRecord :=
  let ra := nonceSelect store nonce apiKeyId
  let rb := nonceSelect store nonce apiKeyId
  let oa := nonceDecision ra now
  let s1 := match ra with
    | some d => if oa.valid then nonceMarkUsed store d.id else store
    | none => store
  let ob := nonceDecision rb now
  let s2 := match rb with
    | some d => if ob.valid then nonceMarkUsed s1 d.id else s1
    | none => s1
  (oa, ob, s2)

/-- Result of the supabase read in `checkRateLimit`: a row with the count of the
day, the `PGRST116` not-found error, or some other storage error. -/
inductive SupaRead where
  | row (request_count : Nat)
  | notFound
  | otherError
  deriving DecidableEq, Repr

/-- Return value of `checkRateLimit`; the early-return branch carries
neither `current` nor `limit`. -/
structure RateOutcome where
  allowed : Bool
  current : Option Nat
  limit : Option Nat
  deriving DecidableEq, Repr

/-- `ValidationService.checkRateLimit` (validationService.js 308-328).
The early return fires only on errors other than `PGRST116`, so the
not-found case falls through to the counting branch with a count of 0. -/
def checkRateLimit (readResult : SupaRead) (maxRequests : Nat) : RateOutcome :=
  match readResult with
  | .otherError => { allowed := true, current := none, limit := none }
  | .notFound =>
    { allowed := decide (0 < maxRequests), current := some 0, limit := some maxRequests }
  | .row c =>
    { allowed := decide (c < maxRequests), current := some c, limit := some maxRequests }

/-- Render a number as eight lower-case hex digits. -/
def toHex8 (n : Nat) : String :=
  let digits := "0123456789abcdef".data
  let d := fun k => digits.getD ((n / 16 ^ k) % 16) '0'
  String.mk [d 7, d 6, d 5, d 4, d 3, d 2, d 1, d 0]

/-- Modelled from the spec: stand-in for the node crypto HMAC-SHA256 hex
digest used by `SignatureService.sign` (the crypto library is outside the
repository).  Like the real digest it is a deterministic function of
payload and secret rendered as 64 lower-case hex characters; no theorem
below depends on any further property of the digest. -/
def hmacFix (payload secret : String) : String :=
  let h := (payload ++ "|" ++ secret).data.foldl
    (fun a c => (a * 31 + c.toNat) % 4294967296) 7
  String.join (List.replicate 8 (toHex8 h))

/-- The six required request fields, in the order of the `requiredFields`
array (validationService.js 31). -/
inductive ReqField where
  | product_id
  | domain
  | api_key
  | timestamp
  | nonce
  | signature
  deriving DecidableEq, Repr

/-- The JSON name of a required field. -/
def ReqField.name : ReqField → String
  | .product_id => "product_id"
  | .domain => "domain"
  | .api_key => "api_key"
  | .timestamp => "timestamp"
  | .nonce => "nonce"
  | .signature => "signature"

/-- The `requiredFields` array (validationService.js 31). -/
def requiredFields : List ReqField :=
  [.product_id, .domain, .api_key, .timestamp, .nonce, .signature]

/-- The request body restricted to the six checked properties, each
holding an arbitrary JSON scalar. -/
structure RawRequest where
  product_id : JVal
  domain : JVal
  api_key : JVal
  timestamp : JVal
  nonce : JVal
  signature : JVal
  deriving DecidableEq, Repr

/-- Property read on the raw request. -/
def RawRequest.get (r : RawRequest) : ReqField → JVal
  | .product_id => r.product_id
  | .domain => r.domain
  | .api_key => r.api_key
  | .timestamp => r.timestamp
  | .nonce => r.nonce
  | .signature => r.signature

/-- Replace one property of the raw request. -/
def RawRequest.set (r : RawRequest) : ReqField → JVal → RawRequest
  | .product_id, v => { r with product_id := v }
  | .domain, v => { r with domain := v }
  | .api_key, v => { r with api_key := v }
  | .timestamp, v => { r with timestamp := v }
  | .nonce, v => { r with nonce := v }
  | .signature, v => { r with signature := v }

/-- The field-presence filter of `validateLicense` (validationService.js
31-32): `requiredFields.filter(field => !requestData[field])`, rendered
as the names of the fields whose value is falsy. -/
def missingFields (r : RawRequest) : List String :=
  (requiredFields.filter (fun f => !(r.get f).truthy)).map ReqField.name

/-- A well-formed validation request as described by the data model
(§3 ValidationRequest): string fields plus an integer unix timestamp.
The validation middleware of the HTTP route guarantees these types before
`validateLicense` runs. -/
structure ValidationRequest where
  product_id : String
  domain : String
  api_key : String
  timestamp : Int
  nonce : String
  signature : String
  deriving DecidableEq, Repr

/-- The raw view of a well-formed request. -/
def ValidationRequest.toRaw (r : ValidationRequest) : RawRequest :=
  { product_id := .str r.product_id
    domain := .str r.domain
    api_key := .str r.api_key
    timestamp := .num r.timestamp
    nonce := .str r.nonce
    signature := .str r.signature }

/-- The joined `users` row, as selected by the key lookup. -/
structure UserRec where
  id : Nat
  email : String
  status : String
  deriving DecidableEq, Repr

/-- The joined `products` row. -/
structure Product where
  id : String
  name : String
  version : String
  status : String
  deriving DecidableEq, Repr

/-- The joined `orders` row. -/
structure OrderRec where
  payment_status : String
  end_date : Option Int
  deriving DecidableEq, Repr

/-- The `api_keys` row together with its joined product, user and order,
as returned by the key lookup in `validateLicense`. -/
structure ApiKeyData where
  id : Nat
  api_key : String
  api_secret : String
  status : String
  product_id : String
  product : Option Product
  user : UserRec
  order : Option OrderRec
  allowed_domains : Option (List String)
  allowed_ips : Option (List String)
  max_requests_per_day : Nat
  deriving DecidableEq, Repr

/-- One snapshot of the external state consulted during a pipeline run:
the key record resolved for the presented key (none when the lookup
fails), the nonce store, the rate-counter read of the day for that key, and
the current unix time. -/
structure Snapshot where
  keyRecord : Option ApiKeyData
  nonceStore : List NonceRecord
  rateRead : SupaRead
  now : Int
  deriving Repr

/-- The error object of a failure response. -/
structure ErrorInfo where
  code : String
  message : String
  deriving DecidableEq, Repr

/-- The success payload (validationService.js 232-242). -/
structure LicenseData where
  product_id : String
  product_name : String
  product_version : String
  license_status : String
  expires_at : Option Int
  deriving DecidableEq, Repr

/-- The value returned by `validateLicense`. -/
structure VOutcome where
  success : Bool
  valid : Bool
  message : Option String
  error : Option ErrorInfo
  data : Option LicenseData
  deriving DecidableEq, Repr

/-- The rejection code of an outcome, `none` on success. -/
def VOutcome.errorCode (o : VOutcome) : Option String :=
  o.error.map ErrorInfo.code

/-- `ValidationService.createErrorResponse` (validationService.js
377-392), with the audit-log side effect dropped. -/
def createErrorResponse (errorCode errorMessage : String) : VOutcome :=
  { success := false
    valid := false
    message := none
    error := some ⟨errorCode, errorMessage⟩
    data := none }

/-- The field set signed by a validation request (validationService.js
188-194). -/
def sigFields (req : ValidationRequest) : List (String × JVal) :=
  [("product_id", .str req.product_id)
  , ("domain", .str req.domain)
  , ("api_key", .str req.api_key)
  , ("timestamp", .num req.timestamp)
  , ("nonce", .str req.nonce)]

/-- The success response of `validateLicense` (validationService.js
228-243). -/
def successResponse (k : ApiKeyData) : VOutcome :=
  { success := true
    valid := true
    message := some "License validated successfully"
    error := none
    data := match k.product with
      | some p => some
        { product_id := p.id
          product_name := p.name
          product_version := p.version
          license_status := k.status
          expires_at := match k.order with
            | some o => o.end_date
            | none => none }
      | none => none }

/-- Checks 9-14 of `validateLicense` (validationService.js 145-243),
reached once the key record `k` has passed the status checks: domain,
IP, rate limit, nonce, signature, then the success response.  The
signature step goes through `verify`, whose exception is caught by the
try/catch around the whole pipeline and converted to `INTERNAL_ERROR`
(validationService.js 245-253). -/
def validateTail (hmac : String → String → String) (req : ValidationRequest)
    (clientIp : String) (s : Snapshot) (k : ApiKeyData) : VOutcome :=
  if !(SignatureService.isDomainAllowed req.domain k.allowed_domains) then
    createErrorResponse "DOMAIN_NOT_ALLOWED"
      ("Domain " ++ req.domain ++ " is not authorized")
  else if !(SignatureService.isIpAllowed clientIp k.allowed_ips) then
    createErrorResponse "IP_NOT_ALLOWED" ("IP " ++ clientIp ++ " is not authorized")
  else if !((checkRateLimit s.rateRead k.max_requests_per_day).allowed) then
    createErrorResponse "RATE_LIMIT_EXCEEDED"
      ("Daily limit of " ++ toString k.max_requests_per_day ++ " requests exceeded")
  else
    if !((checkAndMarkNonce s.nonceStore req.nonce k.id s.now).1.valid) then
      createErrorResponse "INVALID_NONCE"
        ((checkAndMarkNonce s.nonceStore req.nonce k.id s.now).1.message.getD "")
    else
      match SignatureService.verify hmac (sigFields req) req.signature k.api_secret with
      | .error _ => createErrorResponse "INTERNAL_ERROR" "An error occurred during validation"
      | .ok false =>
        createErrorResponse "INVALID_SIGNATURE" "Request signature verification failed"
      | .ok true => successResponse k

/-- `ValidationService.validateLicense` (validationService.js 20-254):
the ordered fail-fast pipeline, returning the response object.  Database
writes (expiring the key, marking the nonce, bumping the counter,
touching last-seen) do not alter the returned value and are modelled at
the level of the individual operations. -/
def validateLicense (hmac : String → String → String) (req : ValidationRequest)
    (clientIp : String) (s : Snapshot) : VOutcome :=
  if 0 < (missingFields req.toRaw).length then
    createErrorResponse "MISSING_FIELDS"
      ("Missing required fields: " ++
        String.intercalate ", " (missingFields req.toRaw))
  else if !(SignatureService.isTimestampValid s.now req.timestamp 15) then
    createErrorResponse "INVALID_TIMESTAMP" "Request timestamp is too old or in the future"
  else
    match s.keyRecord with
    | none => createErrorResponse "INVALID_API_KEY" "API key not found"
    | some k =>
      if !(k.status == "active") then
        createErrorResponse "API_KEY_INACTIVE" ("API key status: " ++ k.status)
      else if !(match k.product with
          | some p => p.status == "active"
          | none => false) then
        createErrorResponse "PRODUCT_INACTIVE" "Product is not active"
      else if !(k.product_id == req.product_id) then
        createErrorResponse "PRODUCT_MISMATCH" "API key does not belong to this product"
      else if !(k.user.status == "active") then
        createErrorResponse "USER_SUSPENDED" "User account is not active"
      else
        match k.order with
        | some o =>
          if !(o.payment_status == "paid") then
            createErrorResponse "PAYMENT_REQUIRED" "Payment not completed"
          else if (match o.end_date with
              | some d => decide (d < s.now)
              | none => false) then
            createErrorResponse "SUBSCRIPTION_EXPIRED" "Subscription has expired"
          else validateTail hmac req clientIp s k
        | none => validateTail hmac req clientIp s k

/-- The HTTP status chosen by `ValidateController.validateRequest`
(validateController.js 16): 200 when the outcome is a success, 403
otherwise. -/
def validateRequestStatus (o : VOutcome) : Nat :=
  if o.success then 200 else 403

/-- Modelled from the spec: `verify` as §4.1 defines it, where an
unequal-length comparison is an immediate `false` rather than an
exception.  Used as the reading of check 13 of the §4.4 transition
rules. -/
def specVerify (hmac : String → String → String) (data : List (String × JVal))
    (signature secret : String) : Bool :=
  match SignatureService.verify hmac data signature secret with
  | .ok b => b
  | .error _ => false

/-- Modelled from the spec: the §4.4 transition rules as an ordered list
of (rejection code, check passes) pairs.  Checks that depend on the
resolved key are padded with `true` when the key lookup fails, which is
never reached by the first-failure reading since the lookup check itself
fails first. -/
def specChecks (hmac : String → String → String) (req : ValidationRequest)
    (clientIp : String) (s : Snapshot) : List (String × Bool) :=
  [ ("MISSING_FIELDS", (missingFields req.toRaw).isEmpty)
  , ("INVALID_TIMESTAMP", SignatureService.isTimestampValid s.now req.timestamp 15)
  , ("INVALID_API_KEY", s.keyRecord.isSome)
  , ("API_KEY_INACTIVE", match s.keyRecord with
      | some k => k.status == "active"
      | none => true)
  , ("PRODUCT_INACTIVE", match s.keyRecord with
      | some k => match k.product with
        | some p => p.status == "active"
        | none => false
      | none => true)
  , ("PRODUCT_MISMATCH", match s.keyRecord with
      | some k => k.product_id == req.product_id
      | none => true)
  , ("USER_SUSPENDED", match s.keyRecord with
      | some k => k.user.status == "active"
      | none => true)
  , ("PAYMENT_REQUIRED", match s.keyRecord with
      | some k => match k.order with
        | some o => o.payment_status == "paid"
        | none => true
      | none => true)
  , ("SUBSCRIPTION_EXPIRED", match s.keyRecord with
      | some k => match k.order with
        | some o =>
          !(match o.end_date with
            | some d => decide (d < s.now)
            | none => false)
        | none => true
      | none => true)
  , ("DOMAIN_NOT_ALLOWED", match s.keyRecord with
      | some k => SignatureService.isDomainAllowed req.domain k.allowed_domains
      | none => true)
  , ("IP_NOT_ALLOWED", match s.keyRecord with
      | some k => SignatureService.isIpAllowed clientIp k.allowed_ips
      | none => true)
  , ("RATE_LIMIT_EXCEEDED", match s.keyRecord with
      | some k => (checkRateLimit s.rateRead k.max_requests_per_day).allowed
      | none => true)
  , ("INVALID_NONCE", match s.keyRecord with
      | some k => (checkAndMarkNonce s.nonceStore req.nonce k.id s.now).1.valid
      | none => true)
  , ("INVALID_SIGNATURE", match s.keyRecord with
      | some k => specVerify hmac (sigFields req) req.signature k.api_secret
      | none => true) ]

/-- Modelled from the spec: the rejection code of the first failing
check of the §4.4 transition rules, `none` when every check passes. -/
def specRejection (hmac : String → String → String) (req : ValidationRequest)
    (clientIp : String) (s : Snapshot) : Option String :=
  ((specChecks hmac req clientIp s).find? (fun c => !c.2)).map Prod.fst

/-! Concrete sample data used by witnesses and counterexamples. -/

/-- A provisioned key in good standing: active key, product and user, no
order, domain allow-list `example.com`, no IP restriction, quota 100. -/
def sampleKey : ApiKeyData :=
  { id := 1
    api_key := "k"
    api_secret := "sec"
    status := "active"
    product_id := "p"
    product := some ⟨"p", "Prod", "1.0", "active"⟩
    user := ⟨3, "u@example.com", "active"⟩
    order := none
    allowed_domains := some ["example.com"]
    allowed_ips := none
    max_requests_per_day := 100 }

/-- A nonce store holding one fresh nonce for `sampleKey`. -/
def sampleStore : List NonceRecord := [⟨1, "n1", 1, false, 100⟩]

/-- A snapshot at time 10 in which every check can pass. -/
def sampleSnapshot : Snapshot :=
  { keyRecord := some sampleKey
    nonceStore := sampleStore
    rateRead := .notFound
    now := 10 }

/-- A fresh, well-formed request whose signature is the 8-byte string
`deadbeef` — the wrong length for a 64-hex-character digest. -/
def sampleRequest : ValidationRequest :=
  { product_id := "p"
    domain := "example.com"
    api_key := "k"
    timestamp := 10
    nonce := "n1"
    signature := "deadbeef" }

/-- The same request carrying the correct signature. -/
def sampleSignedRequest : ValidationRequest :=
  { sampleRequest with
    signature := SignatureService.sign hmacFix (sigFields sampleRequest) "sec" }

/-- The same request with an empty (falsy) domain field. -/
def missingDomainRequest : ValidationRequest :=
  { sampleRequest with domain := "" }

/-- A raw request with every field truthy. -/
def rawSample : RawRequest :=
  ⟨.str "p", .str "d", .str "k", .num 5, .str "n", .str "s"⟩

/-! Theorems. -/

/-- C2: for every field mapping and every secret (and any digest
function), verifying the signature produced by `sign` with the same
fields and secret succeeds: `verify(fields, sign(fields, secret),
secret)` returns true (no exception). -/
theorem verify_sign_roundTrip (hmac : String → String → String)
    (data : List (String × JVal)) (secret : String) :
    SignatureService.verify hmac data (SignatureService.sign hmac data secret) secret =
      .ok true := by
  unfold SignatureService.verify SignatureService.timingSafeEqual
  simp

/-- C3: `verify` hands the supplied signature and the recomputed digest
to `crypto.timingSafeEqual` without checking lengths first, so whenever
the byte length of the supplied signature differs from that of the
digest the call raises a `RangeError` instead of returning false. -/
theorem verify_length_mismatch_throws (hmac : String → String → String)
    (data : List (String × JVal)) (signature secret : String)
    (h : signature.utf8ByteSize ≠ (SignatureService.sign hmac data secret).utf8ByteSize) :
    SignatureService.verify hmac data signature secret =
      .error "RangeError: Input buffers must have the same byte length" := by
  unfold SignatureService.verify SignatureService.timingSafeEqual
  rw [if_neg h]

/-- Witness for C3 at the input of the own test of the repository: the 15-byte
string `wrong_signature` against a 64-character digest. -/
theorem verify_length_mismatch_throws_witness :
    "wrong_signature".utf8ByteSize ≠
      (SignatureService.sign hmacFix [("test", JVal.str "value")] "secret").utf8ByteSize ∧
    SignatureService.verify hmacFix [("test", JVal.str "value")] "wrong_signature" "secret" =
      .error "RangeError: Input buffers must have the same byte length" :=
  ⟨by decide,
   verify_length_mismatch_throws hmacFix [("test", JVal.str "value")]
     "wrong_signature" "secret" (by decide)⟩

/-- The row found by `nonceSelect` is preserved by `nonceMarkUsed` except
for its `used` flag, because the update touches neither the nonce value
nor the key id. -/
theorem nonceSelect_markUsed (store : List NonceRecord) (n : String) (k : Nat)
    (r : NonceRecord) (h : nonceSelect store n k = some r) :
    nonceSelect (nonceMarkUsed store r.id) n k = some { r with used := true } := by
  unfold nonceSelect nonceMarkUsed
  rw [List.find?_map]
  have hp : ((fun x : NonceRecord => x.nonce == n && x.api_key_id == k) ∘
      (fun x : NonceRecord => if x.id == r.id then { x with used := true } else x)) =
      (fun x : NonceRecord => x.nonce == n && x.api_key_id == k) := by
    funext x
    by_cases hx : x.id = r.id <;> simp [hx]
  rw [hp]
  unfold nonceSelect at h
  rw [h]
  simp

/-- C5: `checkAndMarkNonce` returns "not found" when no row matches the
(nonce, key) pair, "already used" when the row is marked used, "expired"
when the row is unused but past expiry, and otherwise marks the row used
and returns valid; after a successful call, an immediate second call on
the same pair is rejected as already used. -/
theorem checkAndMarkNonce_spec (store : List NonceRecord) (n : String)
    (k : Nat) (now : Int) :
    (nonceSelect store n k = none →
      checkAndMarkNonce store n k now = (⟨false, some "Nonce not found"⟩, store)) ∧
    (∀ r, nonceSelect store n k = some r → r.used = true →
      checkAndMarkNonce store n k now =
        (⟨false, some "Nonce already used (replay attack)"⟩, store)) ∧
    (∀ r, nonceSelect store n k = some r → r.used = false → r.expires_at < now →
      checkAndMarkNonce store n k now = (⟨false, some "Nonce expired"⟩, store)) ∧
    (∀ r, nonceSelect store n k = some r → r.used = false → ¬(r.expires_at < now) →
      (checkAndMarkNonce store n k now).1 = ⟨true, none⟩ ∧
      ∀ now2, (checkAndMarkNonce (checkAndMarkNonce store n k now).2 n k now2).1 =
        ⟨false, some "Nonce already used (replay attack)"⟩) := by
  refine ⟨?_, ?_, ?_, ?_⟩
  · intro h
    unfold checkAndMarkNonce
    rw [h]
  · intro r h hu
    unfold checkAndMarkNonce
    rw [h]
    simp [hu]
  · intro r h hu he
    unfold checkAndMarkNonce
    rw [h]
    simp [hu, he]
  · intro r h hu he
    have hmain : checkAndMarkNonce store n k now =
        (⟨true, none⟩, nonceMarkUsed store r.id) := by
      unfold checkAndMarkNonce
      rw [h]
      simp [hu, he]
    refine ⟨by rw [hmain], ?_⟩
    intro now2
    rw [hmain]
    have h2 := nonceSelect_markUsed store n k r h
    unfold checkAndMarkNonce
    rw [h2]
    simp

/-- Witness for C5: on a store holding one fresh nonce, the first call
consumes it and the immediate second call reports a replay. -/
theorem checkAndMarkNonce_spec_witness :
    nonceSelect sampleStore "n1" 1 = some ⟨1, "n1", 1, false, 100⟩ ∧
    (checkAndMarkNonce sampleStore "n1" 1 10).1 = ⟨true, none⟩ ∧
    (checkAndMarkNonce (checkAndMarkNonce sampleStore "n1" 1 10).2 "n1" 1 10).1 =
      ⟨false, some "Nonce already used (replay attack)"⟩ := by
  have h := (checkAndMarkNonce_spec sampleStore "n1" 1 10).2.2.2
    ⟨1, "n1", 1, false, 100⟩ (by decide) rfl (by decide)
  exact ⟨by decide, h.1, h.2 10⟩

/-- C6: the source performs the nonce check-and-mark as a separate read
call and write call, so under the interleaving read-A, read-B, write-A,
write-B both concurrent runs on the same fresh (nonce, key) pair observe
the nonce as fresh and return valid — refuting the at-most-one
guarantee the claim states. -/
theorem nonceRace_bothValid :
    (nonceRaceReadReadWriteWrite sampleStore "n1" 1 10).1.valid = true ∧
    (nonceRaceReadReadWriteWrite sampleStore "n1" 1 10).2.1.valid = true := by
  decide

/-- C8: with no rate counter for the day (the `PGRST116` not-found read)
and a quota of 0, `checkRateLimit` rejects the request — the early
return meant for the first request fires only on errors other than
`PGRST116`, so the absent counter falls through to `0 < 0`. -/
theorem checkRateLimit_zero_quota_rejects :
    checkRateLimit .notFound 0 =
      { allowed := false, current := some 0, limit := some 0 } ∧
    checkRateLimit .notFound 1 =
      { allowed := true, current := some 0, limit := some 1 } := by
  decide

set_option maxRecDepth 40000 in
/-- C9: the controller maps every non-success outcome to HTTP 403, so a
request rejected as `MISSING_FIELDS` and a request collapsing to
`INTERNAL_ERROR` (here: a wrong-length signature making the comparison
throw) are both answered with 403 — not 400 and 500 as the claim (and
the own test of the repository for missing fields) require. -/
theorem validateRequest_status_403 :
    (validateLicense hmacFix missingDomainRequest "1.2.3.4" sampleSnapshot).errorCode =
      some "MISSING_FIELDS" ∧
    validateRequestStatus
      (validateLicense hmacFix missingDomainRequest "1.2.3.4" sampleSnapshot) = 403 ∧
    (validateLicense hmacFix sampleRequest "1.2.3.4" sampleSnapshot).errorCode =
      some "INTERNAL_ERROR" ∧
    validateRequestStatus
      (validateLicense hmacFix sampleRequest "1.2.3.4" sampleSnapshot) = 403 ∧
    validateRequestStatus
      (validateLicense hmacFix sampleSignedRequest "1.2.3.4" sampleSnapshot) = 200 := by
  decide

/-- C7: `isDomainAllowed` fails closed on a missing or empty pattern
list; otherwise it accepts the domain exactly when some pattern whose
normalized form starts with `*.` has the normalized domain ending in the
suffix of the pattern after the `*.`, or some other pattern equals the
normalized domain after normalization. -/
theorem isDomainAllowed_spec (d : String) (ps : Option (List String)) :
    ((ps = none ∨ ps = some []) → SignatureService.isDomainAllowed d ps = false) ∧
    (∀ l, ps = some l →
      (SignatureService.isDomainAllowed d ps = true ↔
        ∃ p ∈ l,
          (SignatureService.strStartsWith (SignatureService.normalizeDomain p) "*." = true ∧
            SignatureService.strEndsWith (SignatureService.normalizeDomain d)
              (SignatureService.strDrop (SignatureService.normalizeDomain p) 2) = true) ∨
          (SignatureService.strStartsWith (SignatureService.normalizeDomain p) "*." = false ∧
            SignatureService.normalizeDomain d = SignatureService.normalizeDomain p))) := by
  constructor
  · rintro (rfl | rfl) <;> simp [SignatureService.isDomainAllowed]
  · rintro l rfl
    by_cases he : l.isEmpty = true
    · have hl : l = [] := List.isEmpty_iff.mp he
      subst hl
      simp [SignatureService.isDomainAllowed]
    · simp only [SignatureService.isDomainAllowed]
      rw [if_neg he]
      simp only [List.any_eq_true]
      apply exists_congr
      intro p
      apply and_congr_right
      intro _
      by_cases hs : SignatureService.strStartsWith (SignatureService.normalizeDomain p) "*." = true
      · simp [hs]
      · rw [Bool.not_eq_true] at hs
        simp [hs]

/-- Witness for C7: the empty list rejects, and the wildcard pattern list
from the own test of the repository accepts `sub.example.com`. -/
theorem isDomainAllowed_spec_witness :
    SignatureService.isDomainAllowed "x" (some []) = false ∧
    (SignatureService.isDomainAllowed "sub.example.com" (some ["*.example.com"]) = true ↔
      ∃ p ∈ ["*.example.com"],
        (SignatureService.strStartsWith (SignatureService.normalizeDomain p) "*." = true ∧
          SignatureService.strEndsWith (SignatureService.normalizeDomain "sub.example.com")
            (SignatureService.strDrop (SignatureService.normalizeDomain p) 2) = true) ∨
        (SignatureService.strStartsWith (SignatureService.normalizeDomain p) "*." = false ∧
          SignatureService.normalizeDomain "sub.example.com" =
            SignatureService.normalizeDomain p)) :=
  ⟨(isDomainAllowed_spec "x" (some [])).1 (Or.inr rfl),
   (isDomainAllowed_spec "sub.example.com" (some ["*.example.com"])).2
     ["*.example.com"] rfl⟩

/-- `charListLe` is total. -/
theorem charListLe_total : ∀ as bs : List Char,
    charListLe as bs = true ∨ charListLe bs as = true := by
  intro as
  induction as with
  | nil => intro bs; left; rfl
  | cons a as ih =>
    intro bs
    cases bs with
    | nil => right; rfl
    | cons b bs =>
      by_cases hab : a = b
      · subst hab
        rcases ih bs with h | h
        · left; simpa [charListLe] using h
        · right; simpa [charListLe] using h
      · rcases lt_or_gt_of_ne hab with h | h
        · left; simp [charListLe, hab, h]
        · right; simp [charListLe, Ne.symm hab, h]

/-- `charListLe` is transitive. -/
theorem charListLe_trans : ∀ as bs cs : List Char,
    charListLe as bs = true → charListLe bs cs = true → charListLe as cs = true := by
  intro as
  induction as with
  | nil => intro bs cs _ _; rfl
  | cons a as ih =>
    intro bs cs h1 h2
    cases bs with
    | nil => simp [charListLe] at h1
    | cons b bs =>
      cases cs with
      | nil => simp [charListLe] at h2
      | cons c cs =>
        by_cases hab : a = b
        · subst hab
          by_cases hac : a = c
          · subst hac
            simp only [charListLe, if_pos rfl] at h1 h2 ⊢
            exact ih bs cs h1 h2
          · simp only [charListLe, if_pos rfl] at h1
            simp only [charListLe, if_neg hac] at h2 ⊢
            exact h2
        · by_cases hbc : b = c
          · subst hbc
            simp only [charListLe, if_neg hab] at h1 ⊢
            exact h1
          · simp only [charListLe, if_neg hab, if_neg hbc,
              decide_eq_true_eq] at h1 h2
            have hac : a < c := lt_trans h1 h2
            simp [charListLe, ne_of_lt hac, hac]

/-- `charListLe` is antisymmetric. -/
theorem charListLe_antisymm : ∀ as bs : List Char,
    charListLe as bs = true → charListLe bs as = true → as = bs := by
  intro as
  induction as with
  | nil =>
    intro bs h1 h2
    cases bs with
    | nil => rfl
    | cons b bs => simp [charListLe] at h2
  | cons a as ih =>
    intro bs h1 h2
    cases bs with
    | nil => simp [charListLe] at h1
    | cons b bs =>
      by_cases hab : a = b
      · subst hab
        simp only [charListLe, if_pos rfl] at h1 h2
        rw [ih bs h1 h2]
      · simp only [charListLe, if_neg hab, if_neg (Ne.symm hab),
          decide_eq_true_eq] at h1 h2
        exact absurd h2 (asymm h1)

/-- On association lists with distinct keys, key search is invariant
under permutation. -/
theorem find?_key_perm (k : String) :
    ∀ {l1 l2 : List (String × JVal)}, l1.Perm l2 →
      (l1.map Prod.fst).Nodup →
      l1.find? (fun p => p.1 == k) = l2.find? (fun p => p.1 == k) := by
  intro l1 l2 hp
  induction hp with
  | nil => intro _; rfl
  | cons x h ih =>
    intro hnd
    simp only [List.map_cons, List.nodup_cons] at hnd
    cases hx : x.1 == k
    · simp only [List.find?_cons, hx]
      exact ih hnd.2
    · simp only [List.find?_cons, hx]
  | swap x y l =>
    intro hnd
    simp only [List.map_cons, List.nodup_cons, List.mem_cons] at hnd
    cases hy : y.1 == k <;> cases hx : x.1 == k <;>
      simp only [List.find?_cons, hy, hx]
    exact absurd ((beq_iff_eq.mp hy).trans (beq_iff_eq.mp hx).symm)
      (fun hyx => hnd.1 (Or.inl hyx))
  | trans h12 _ ih12 ih23 =>
    intro hnd
    have hnd2 : (_ : List (String × JVal)).map Prod.fst |>.Nodup :=
      (h12.map Prod.fst).nodup hnd
    exact (ih12 hnd).trans (ih23 hnd2)

/-- Property read is invariant under permutation of an object with
distinct keys. -/
theorem jlookup_perm {l1 l2 : List (String × JVal)} (hp : l1.Perm l2)
    (hnd : (l1.map Prod.fst).Nodup) (k : String) :
    jlookup l1 k = jlookup l2 k := by
  unfold jlookup
  rw [find?_key_perm k hp hnd]

set_option maxRecDepth 4000 in
/-- C4: on objects with distinct keys, the canonical payload is invariant
under permutation of the entries — `createPayload` drops nullish values,
sorts the remaining keys and joins `key=value` pairs, so insertion order
never matters. -/
theorem createPayload_perm (l1 l2 : List (String × JVal))
    (hnd : (l1.map Prod.fst).Nodup) (hp : l1.Perm l2) :
    SignatureService.createPayload l1 = SignatureService.createPayload l2 := by
  unfold SignatureService.createPayload
  have hkeys : (l1.map Prod.fst).Perm (l2.map Prod.fst) := hp.map _
  letI : IsTotal String strLe := ⟨fun a b => charListLe_total a.data b.data⟩
  letI : IsTrans String strLe :=
    ⟨fun a b c h1 h2 => charListLe_trans a.data b.data c.data h1 h2⟩
  letI : IsAntisymm String strLe :=
    ⟨fun a b h1 h2 => by
      cases a with
      | mk da =>
        cases b with
        | mk db => exact congrArg String.mk (charListLe_antisymm da db h1 h2)⟩
  have hsort : List.insertionSort strLe (l1.map Prod.fst) =
      List.insertionSort strLe (l2.map Prod.fst) :=
    List.eq_of_perm_of_sorted
      ((List.perm_insertionSort _ _).trans
        (hkeys.trans (List.perm_insertionSort _ _).symm))
      (List.sorted_insertionSort _ _) (List.sorted_insertionSort _ _)
  rw [hsort]
  refine congrArg _ (List.filterMap_congr ?_)
  intro key _
  rw [jlookup_perm hp hnd key]

/-- Witness for C4: two insertion orders of the same three-entry object
(one entry null-valued) canonicalize identically. -/
theorem createPayload_perm_witness :
    (([("b", JVal.str "2"), ("a", JVal.str "1"), ("z", JVal.null)]).map
      Prod.fst).Nodup ∧
    List.Perm [("b", JVal.str "2"), ("a", JVal.str "1"), ("z", JVal.null)]
      [("z", JVal.null), ("a", JVal.str "1"), ("b", JVal.str "2")] ∧
    SignatureService.createPayload
      [("b", JVal.str "2"), ("a", JVal.str "1"), ("z", JVal.null)] =
    SignatureService.createPayload
      [("z", JVal.null), ("a", JVal.str "1"), ("b", JVal.str "2")] :=
  ⟨by decide, by decide,
   createPayload_perm _ _ (by decide) (by decide)⟩

/-- Reading back the property just set. -/
theorem RawRequest.get_set_same (r : RawRequest) (f : ReqField) (v : JVal) :
    (r.set f v).get f = v := by
  cases f <;> rfl

/-- Reading a property other than the one just set. -/
theorem RawRequest.get_set_other (r : RawRequest) (f g : ReqField) (v : JVal)
    (hgf : g ≠ f) : (r.set f v).get g = r.get g := by
  cases f <;> cases g <;> first | rfl | exact absurd rfl hgf

/-- A field with a falsy value is listed among the missing fields. -/
theorem mem_missingFields (r : RawRequest) (f : ReqField)
    (h : (r.get f).truthy = false) : f.name ∈ missingFields r := by
  refine List.mem_map_of_mem _ (List.mem_filter.mpr ⟨?_, ?_⟩)
  · cases f <;> simp [requiredFields]
  · simp [h]

/-- The missing-fields list only looks at truthiness, so replacing a
falsy value by `undefined` (an absent property) leaves it unchanged. -/
theorem missingFields_set_falsy (r : RawRequest) (f : ReqField) (v : JVal)
    (hv : v.truthy = false) :
    missingFields (r.set f v) = missingFields (r.set f .undefined) := by
  unfold missingFields
  refine congrArg _ (List.filter_congr ?_)
  intro g _
  by_cases hgf : g = f
  · subst hgf
    rw [RawRequest.get_set_same, RawRequest.get_set_same, hv]
    rfl
  · rw [RawRequest.get_set_other r f g v hgf,
      RawRequest.get_set_other r f g JVal.undefined hgf]

/-- C10: a required field holding any falsy value (0, empty string,
null, false) is treated exactly like an absent field — the missing-field
filter is unchanged by substituting `undefined`, the field is reported
missing, and `validateLicense` returns `MISSING_FIELDS` for every
snapshot, i.e. before any other check can influence the outcome. -/
theorem validateLicense_falsy_field (raw : RawRequest) (f : ReqField) (v : JVal)
    (hv : v.truthy = false) (req : ValidationRequest)
    (hreq : (req.toRaw.get f).truthy = false)
    (hmac : String → String → String) (clientIp : String) (s : Snapshot) :
    missingFields (raw.set f v) = missingFields (raw.set f .undefined) ∧
    f.name ∈ missingFields (raw.set f v) ∧
    (validateLicense hmac req clientIp s).errorCode = some "MISSING_FIELDS" := by
  refine ⟨missingFields_set_falsy raw f v hv,
    mem_missingFields _ f (by rw [RawRequest.get_set_same]; exact hv), ?_⟩
  have hne : missingFields req.toRaw ≠ [] :=
    List.ne_nil_of_mem (mem_missingFields _ f hreq)
  unfold validateLicense
  simp only [if_pos (List.length_pos.mpr hne)]
  rfl

/-- Witness for C10: a null-valued domain in a raw request, and the
pipeline rejecting an empty-domain request as `MISSING_FIELDS`. -/
theorem validateLicense_falsy_field_witness :
    missingFields (rawSample.set .domain .null) =
      missingFields (rawSample.set .domain .undefined) ∧
    ReqField.domain.name ∈ missingFields (rawSample.set .domain .null) ∧
    (validateLicense hmacFix missingDomainRequest "1.2.3.4" sampleSnapshot).errorCode =
      some "MISSING_FIELDS" :=
  validateLicense_falsy_field rawSample .domain .null rfl missingDomainRequest rfl
    hmacFix "1.2.3.4" sampleSnapshot

/-- When the supplied signature has the byte length of the digest, `verify`
returns normally, with the result of the byte comparison. -/
theorem verify_ok_of_length_eq (hmac : String → String → String)
    (data : List (String × JVal)) (signature secret : String)
    (h : signature.utf8ByteSize =
      (SignatureService.sign hmac data secret).utf8ByteSize) :
    SignatureService.verify hmac data signature secret =
      .ok (signature == SignatureService.sign hmac data secret) := by
  unfold SignatureService.verify SignatureService.timingSafeEqual
  rw [if_pos h]

/-- C1 (amended): for every request whose signature has the recomputed
byte length of the digest, `validateLicense` runs the §4.4 checks in their
fixed order and returns exactly the rejection code of the first failing
check (`none` exactly when all pass); no later check influences the
outcome once an earlier one has failed.  The length proviso is forced by
the counterexample: a wrong-length signature makes the final comparison
throw, turning the rejection into `INTERNAL_ERROR`. -/
theorem validateLicense_first_failing_check (hmac : String → String → String)
    (req : ValidationRequest) (clientIp : String) (s : Snapshot)
    (hsig : ∀ k, s.keyRecord = some k →
      req.signature.utf8ByteSize =
        (SignatureService.sign hmac (sigFields req) k.api_secret).utf8ByteSize) :
    (validateLicense hmac req clientIp s).errorCode =
      specRejection hmac req clientIp s := by
  unfold validateLicense validateTail specRejection specChecks specVerify
  by_cases hm : missingFields req.toRaw = []
  case neg =>
    rw [if_pos (List.length_pos.mpr hm)]
    have hisE : (missingFields req.toRaw).isEmpty = false := by
      cases hE : (missingFields req.toRaw).isEmpty
      · rfl
      · exact absurd (List.isEmpty_iff.mp hE) hm
    simp [List.find?_cons, hisE, createErrorResponse, VOutcome.errorCode]
  case pos =>
    have hlen : ¬ 0 < (missingFields req.toRaw).length := by simp [hm]
    rw [if_neg hlen]
    cases ht : SignatureService.isTimestampValid s.now req.timestamp 15
    case false =>
      simp [List.find?_cons, hm, createErrorResponse, VOutcome.errorCode]
    case true =>
    cases hk : s.keyRecord
    case none =>
      simp [List.find?_cons, hm, createErrorResponse, VOutcome.errorCode]
    case some k =>
    dsimp only
    cases hks : k.status == "active"
    case false =>
      simp [List.find?_cons, hm, hks, createErrorResponse, VOutcome.errorCode]
    case true =>
    cases hkp : (match k.product with
      | some p => p.status == "active"
      | none => false)
    case false =>
      simp [List.find?_cons, hm, hks, hkp, createErrorResponse, VOutcome.errorCode]
    case true =>
    cases hpm : k.product_id == req.product_id
    case false =>
      simp [List.find?_cons, hm, hks, hkp, hpm, createErrorResponse, VOutcome.errorCode]
    case true =>
    cases hus : k.user.status == "active"
    case false =>
      simp [List.find?_cons, hm, hks, hkp, hpm, hus, createErrorResponse,
        VOutcome.errorCode]
    case true =>
    have htail : (if !(SignatureService.isDomainAllowed req.domain k.allowed_domains) then
          createErrorResponse "DOMAIN_NOT_ALLOWED"
            ("Domain " ++ req.domain ++ " is not authorized")
        else if !(SignatureService.isIpAllowed clientIp k.allowed_ips) then
          createErrorResponse "IP_NOT_ALLOWED" ("IP " ++ clientIp ++ " is not authorized")
        else if !((checkRateLimit s.rateRead k.max_requests_per_day).allowed) then
          createErrorResponse "RATE_LIMIT_EXCEEDED"
            ("Daily limit of " ++ toString k.max_requests_per_day ++ " requests exceeded")
        else if !((checkAndMarkNonce s.nonceStore req.nonce k.id s.now).1.valid) then
          createErrorResponse "INVALID_NONCE"
            ((checkAndMarkNonce s.nonceStore req.nonce k.id s.now).1.message.getD "")
        else
          match SignatureService.verify hmac (sigFields req) req.signature k.api_secret with
          | .error _ =>
            createErrorResponse "INTERNAL_ERROR" "An error occurred during validation"
          | .ok false =>
            createErrorResponse "INVALID_SIGNATURE" "Request signature verification failed"
          | .ok true => successResponse k).errorCode =
        Option.map Prod.fst (List.find? (fun c => !c.2)
          [ ("DOMAIN_NOT_ALLOWED", SignatureService.isDomainAllowed req.domain k.allowed_domains)
          , ("IP_NOT_ALLOWED", SignatureService.isIpAllowed clientIp k.allowed_ips)
          , ("RATE_LIMIT_EXCEEDED", (checkRateLimit s.rateRead k.max_requests_per_day).allowed)
          , ("INVALID_NONCE", (checkAndMarkNonce s.nonceStore req.nonce k.id s.now).1.valid)
          , ("INVALID_SIGNATURE",
              match SignatureService.verify hmac (sigFields req) req.signature k.api_secret with
              | .ok b => b
              | .error _ => false) ]) := by
      cases hd : SignatureService.isDomainAllowed req.domain k.allowed_domains
      case false =>
        simp [List.find?_cons, createErrorResponse, VOutcome.errorCode]
      case true =>
      cases hip : SignatureService.isIpAllowed clientIp k.allowed_ips
      case false =>
        simp [List.find?_cons, createErrorResponse, VOutcome.errorCode]
      case true =>
      cases hrl : (checkRateLimit s.rateRead k.max_requests_per_day).allowed
      case false =>
        simp [List.find?_cons, createErrorResponse, VOutcome.errorCode]
      case true =>
      cases hnc : (checkAndMarkNonce s.nonceStore req.nonce k.id s.now).1.valid
      case false =>
        simp [List.find?_cons, createErrorResponse, VOutcome.errorCode]
      case true =>
      cases hv : SignatureService.verify hmac (sigFields req) req.signature k.api_secret
      case error e =>
        rw [verify_ok_of_length_eq hmac (sigFields req) req.signature k.api_secret
          (hsig k hk)] at hv
        exact absurd hv (by simp)
      case ok b =>
        cases b
        case false =>
          simp [List.find?_cons, createErrorResponse, VOutcome.errorCode]
        case true =>
          simp [List.find?_cons, successResponse, VOutcome.errorCode]
    · by_cases ho : k.order = none
      · rw [ho]
        simpa [List.find?_cons, hm, hks, hkp, hpm, hus] using htail
      · rcases Option.ne_none_iff_exists'.mp ho with ⟨o, ho⟩
        rw [ho]
        cases hpay : o.payment_status == "paid"
        · simp [List.find?_cons, hm, hks, hkp, hpm, hus, hpay, createErrorResponse,
            VOutcome.errorCode]
        · cases hexp : (match o.end_date with
            | some d => decide (d < s.now)
            | none => false)
          · simpa [List.find?_cons, hm, hks, hkp, hpm, hus, hpay, hexp] using htail
          · simp [List.find?_cons, hm, hks, hkp, hpm, hus, hpay, hexp,
              createErrorResponse, VOutcome.errorCode]

set_option maxRecDepth 40000 in
/-- Counterexample to C1 as stated: on a snapshot where every check up
to the nonce passes and the supplied signature is the 8-byte string
`deadbeef`, the first failing check of the §4.4 rules is the signature
check (code `INVALID_SIGNATURE`), but `validateLicense` returns
`INTERNAL_ERROR` because the unequal-length comparison throws. -/
theorem validateLicense_order_counterexample :
    (validateLicense hmacFix sampleRequest "1.2.3.4" sampleSnapshot).errorCode =
      some "INTERNAL_ERROR" ∧
    specRejection hmacFix sampleRequest "1.2.3.4" sampleSnapshot =
      some "INVALID_SIGNATURE" ∧
    (validateLicense hmacFix sampleRequest "1.2.3.4" sampleSnapshot).errorCode ≠
      specRejection hmacFix sampleRequest "1.2.3.4" sampleSnapshot := by
  refine ⟨by decide, by decide, by decide⟩

set_option maxRecDepth 40000 in
/-- Witness for the amended C1 on a request whose signature has the
length of the digest (here: the correct signature, so every check passes and
both sides agree on `none`). -/
theorem validateLicense_first_failing_check_witness :
    (validateLicense hmacFix sampleSignedRequest "1.2.3.4" sampleSnapshot).errorCode =
      specRejection hmacFix sampleSignedRequest "1.2.3.4" sampleSnapshot :=
  validateLicense_first_failing_check hmacFix sampleSignedRequest "1.2.3.4"
    sampleSnapshot (by
      intro k hk
      injection hk with h
      rw [← h]
      rfl)

end Backend
